import Mathlib

set_option maxHeartbeats 1000000

/-! Verification of the lazyworktree worktree-management core against its
specification.  The Python source is shallowly embedded: Python strings are
Lean Strings, Python list and string operations are modelled by structurally
recursive functions over lists of characters, every external process result
is an explicit oracle argument, and code that can raise an exception returns
an Except value. -/

/-! ## Definitions

Character-list models of the Python string operations come first, then the
data model (models.py) and the embedded operations: the absorb pipeline and
failure-notification deduplication, worktree enumeration with its status
parsing and branch-metadata batch, the divergence cache, the PR status
fetch, untracked-file diff capping, and worktree filtering. -/

/-- Does the first list occur at the head of the second?  Models the test
performed by Python str.startswith, over explicit character lists. -/
def chStarts : List Char → List Char → Bool
  | [], _ => true
  | _ :: _, [] => false
  | p :: ps, c :: cs => p == c && chStarts ps cs

/-- Models Python line.startswith(patt). -/
def startsWith (s patt : String) : Bool := chStarts patt.toList s.toList

/-- Does the first list occur as a contiguous sublist of the second?  Models
the Python substring test q in s. -/
def hasSub (q : List Char) : List Char → Bool
  | [] => chStarts q []
  | c :: cs => chStarts q (c :: cs) || hasSub q cs

/-- Models the Python membership test q in s on strings. -/
def strIn (q s : String) : Bool := hasSub q.toList s.toList

/-- Split a character list at every separator character, keeping empty
pieces, like Python str.split(sep) with a one-character separator.  The
accumulator holds the current piece reversed. -/
def splitCharsAux (p : Char → Bool) : List Char → List Char → List (List Char)
  | [], acc => [acc.reverse]
  | c :: cs, acc =>
    if p c then acc.reverse :: splitCharsAux p cs [] else splitCharsAux p cs (c :: acc)

/-- Split a character list at every character satisfying p, keeping empty
pieces. -/
def splitChars (p : Char → Bool) (l : List Char) : List (List Char) :=
  splitCharsAux p l []

/-- Models Python str.splitlines for newline-separated text: the empty string
gives no lines and a trailing newline does not create a final empty line. -/
def pySplitlines (s : String) : List String :=
  if s = "" then []
  else
    let parts := splitChars (fun c => c == '\n') s.toList
    (if parts.getLast? = some [] then parts.dropLast else parts).map String.mk

/-- Models Python str.split() with no argument: split on whitespace runs and
drop empty pieces. -/
def pySplitWs (s : String) : List String :=
  ((splitChars Char.isWhitespace s.toList).filter (fun l => l ≠ [])).map String.mk

/-- Models Python line.split with a pipe separator, keeping empty pieces. -/
def pySplitPipe (s : String) : List String :=
  (splitChars (fun c => c == '|') s.toList).map String.mk

/-- Strip leading and trailing whitespace from a character list. -/
def stripL (l : List Char) : List Char :=
  ((l.dropWhile Char.isWhitespace).reverse.dropWhile Char.isWhitespace).reverse

/-- Models Python str.strip() with no argument. -/
def pyStrip (s : String) : String := String.mk (stripL s.toList)

/-- Models Python str.lower(). -/
def pyLower (s : String) : String := String.mk (s.toList.map Char.toLower)

/-- Models os.path.basename: the suffix after the last slash. -/
def pyBasename (p : String) : String :=
  String.mk ((p.toList.reverse.takeWhile (fun c => c ≠ '/')).reverse)

/-- Models line.split(" ", 1)[1] for a line known to contain a space: the text
after the first space character. -/
def afterFirstSpace (s : String) : String :=
  String.mk ((s.toList.dropWhile (fun c => c ≠ ' ')).drop 1)

/-- Fuel-driven worker for pyReplace: replaces every non-overlapping
occurrence of patt, scanning left to right as CPython does.  The fuel starts
above the list length, so it never runs out for a non-empty pattern. -/
def replaceLAux (patt rep : List Char) : Nat → List Char → List Char
  | 0, l => l
  | _ + 1, [] => []
  | fuel + 1, c :: cs =>
    if patt ≠ [] && chStarts patt (c :: cs) then
      rep ++ replaceLAux patt rep fuel ((c :: cs).drop patt.length)
    else c :: replaceLAux patt rep fuel cs

/-- Models Python str.replace(patt, rep) for a non-empty pattern. -/
def pyReplace (s patt rep : String) : String :=
  String.mk (replaceLAux patt.toList rep.toList (s.toList.length + 1) s.toList)

/-- Decimal value of a digit list. -/
def digitsVal (l : List Char) : Nat :=
  l.foldl (fun acc c => 10 * acc + (c.toNat - 48)) 0

/-- Models Python int(str): optional surrounding whitespace, an optional
sign, then a non-empty run of digits; anything else raises, modelled as none.
(CPython additionally accepts underscore digit grouping, not modelled; every
input considered here is a plain signed digit string or non-numeric.) -/
def pyInt (s : String) : Option Int :=
  match stripL s.toList with
  | '-' :: ds =>
    if ds ≠ [] && ds.all Char.isDigit then some (-(digitsVal ds : Int)) else none
  | '+' :: ds =>
    if ds ≠ [] && ds.all Char.isDigit then some (digitsVal ds : Int) else none
  | ds =>
    if ds ≠ [] && ds.all Char.isDigit then some (digitsVal ds : Int) else none

/-- Models " ".join(args). -/
def pyJoin (sep : String) (l : List String) : String := String.intercalate sep l

/-- Models Python dict assignment d[k] = v on an insertion-ordered
association list: replace the value in place if the key is present,
otherwise append. -/
def dictSet {α : Type} : List (String × α) → String → α → List (String × α)
  | [], k, v => [(k, v)]
  | (k', v') :: rest, k, v =>
    if k' = k then (k, v) :: rest else (k', v') :: dictSet rest k v

/-- Models Python d.get(k): the value stored for the first matching key. -/
def lookupDict {α : Type} (m : List (String × α)) (k : String) : Option α :=
  (m.find? (fun q => q.1 == k)).map (fun q => q.2)

/-- PRInfo from models.py. -/
structure PRInfo where
  number : Int
  state : String
  title : String
  url : String
deriving DecidableEq

/-- WorktreeInfo from models.py. -/
structure WorktreeInfo where
  path : String
  branch : String
  is_main : Bool
  dirty : Bool
  ahead : Int := 0
  behind : Int := 0
  last_active : String := ""
  last_active_ts : Int := 0
  pr : Option PRInfo := none
  untracked : Nat := 0
  modified : Nat := 0
  staged : Nat := 0
  divergence : String := ""
deriving DecidableEq

/-- One externally issued checked git mutation command of the absorb
pipeline. -/
inductive GitCmd where
  | checkout : String → GitCmd
  | merge : String → GitCmd
  | wtRemove : String → GitCmd
  | branchDel : String → GitCmd
deriving DecidableEq

/-- The success or failure of each checked subprocess that absorb may run,
supplied by the environment. -/
structure AbsorbWorld where
  checkoutOk : Bool
  mergeOk : Bool
  removeOk : Bool
  deleteOk : Bool
deriving DecidableEq

/-- Is the command a worktree removal or a branch deletion? -/
def isRemoveOrDelete : GitCmd → Bool
  | GitCmd.wtRemove _ => true
  | GitCmd.branchDel _ => true
  | _ => false

/-- Models action_absorb and its do_absorb callback from app.py: the main
worktree is rejected, a declined confirmation stops everything, then the
four checked commands run in order, each failure returning immediately.
The result is the list of checked git mutation commands issued, in order,
and whether the pipeline reached its successful end.  The terminate-hook
commands run before the checkout issue no checked git mutation command and
cannot abort the pipeline, so they do not appear in the trace. -/
def do_absorb (confirm : Option Bool) (w : AbsorbWorld) (main_branch : String)
    (wt : WorktreeInfo) : List GitCmd × Bool :=
  if wt.is_main then ([], false)
  else if confirm ≠ some true then ([], false)
  else
    let t1 := [GitCmd.checkout main_branch]
    if !w.checkoutOk then (t1, false)
    else
      let t2 := t1 ++ [GitCmd.merge wt.branch]
      if !w.mergeOk then (t2, false)
      else
        let t3 := t2 ++ [GitCmd.wtRemove wt.path]
        if !w.removeOk then (t3, false)
        else
          let t4 := t3 ++ [GitCmd.branchDel wt.branch]
          if !w.deleteOk then (t4, false) else (t4, true)

/-- The five counters accumulated over the porcelain v2 status lines inside
get_wt_info. -/
structure StatusCounts where
  ahead : Int := 0
  behind : Int := 0
  untracked : Nat := 0
  modified : Nat := 0
  staged : Nat := 0
deriving DecidableEq

/-- One iteration of the status-line loop of get_wt_info: a branch.ab header
updates ahead and behind (int() raising on a malformed count is modelled as
an error), a line starting with a question mark counts as untracked, and a
1- or 2-prefixed change line with a two-column XY field bumps staged when
the first column is not a dot and modified when the second is not. -/
def statusStep (st : StatusCounts) (line : String) : Except Unit StatusCounts :=
  if startsWith line "# branch.ab " then
    let parts := pySplitWs line
    if 4 ≤ parts.length then
      match pyInt (pyReplace (parts.getD 2 "") "+" ""),
            pyInt (pyReplace (parts.getD 3 "") "-" "") with
      | some a, some b => Except.ok { st with ahead := a, behind := b }
      | _, _ => Except.error ()
    else Except.ok st
  else if startsWith line "?" then
    Except.ok { st with untracked := st.untracked + 1 }
  else if startsWith line "1 " || startsWith line "2 " then
    let parts := pySplitWs line
    if 1 < parts.length then
      let xy := parts.getD 1 ""
      if 2 ≤ xy.length then
        Except.ok { st with
          staged := st.staged + (if xy.toList.getD 0 ' ' = '.' then 0 else 1),
          modified := st.modified + (if xy.toList.getD 1 ' ' = '.' then 0 else 1) }
      else Except.ok st
    else Except.ok st
  else Except.ok st

/-- A parsed worktree stanza before status enrichment: the dict built by the
porcelain-listing loop, whose path or branch key may be absent, plus the
is_main flag assigned afterwards. -/
structure WtData where
  path : Option String := none
  branch : Option String := none
  is_main : Bool := false
deriving DecidableEq

/-- Models get_wt_info: reading a missing path key raises (error); the
branch defaults to the detached sentinel; the status lines are folded with
statusStep; the branch-metadata join defaults to an empty time and zero
timestamp; dirty is the Python expression untracked + modified + staged
greater than zero. -/
def get_wt_info (wt : WtData) (bi : List (String × String × Int))
    (status_raw : String) : Except Unit WorktreeInfo :=
  match wt.path with
  | none => Except.error ()
  | some path =>
    let branch := wt.branch.getD "(detached)"
    match (pySplitlines status_raw).foldlM statusStep {} with
    | Except.error e => Except.error e
    | Except.ok st =>
      let la := (lookupDict bi branch).getD ("", 0)
      Except.ok
        { path := path, branch := branch, is_main := wt.is_main,
          dirty := decide (0 < st.untracked + st.modified + st.staged),
          ahead := st.ahead, behind := st.behind,
          last_active := la.1, last_active_ts := la.2,
          untracked := st.untracked, modified := st.modified, staged := st.staged }

/-- A worktree stanza dict as built by the porcelain-listing loop of
get_worktrees, before the is_main pass: either key may be absent. -/
structure RawWt where
  path : Option String := none
  branch : Option String := none
deriving DecidableEq

/-- Python truthiness of the stanza dict: it is non-empty as soon as either
key has been assigned. -/
def rawWtTruthy (r : RawWt) : Bool := r.path.isSome || r.branch.isSome

/-- One iteration of the porcelain-listing loop of get_worktrees: a
worktree marker line appends the current dict when non-empty and starts a
new one holding the path; a branch marker line assigns the branch key
(stripping the refs/heads/ namespace) on the current dict, whichever it is;
any other line is ignored. -/
def parseStep : List RawWt × RawWt → String → List RawWt × RawWt
  | (acc, cur), line =>
    if startsWith line "worktree " then
      (if rawWtTruthy cur then acc ++ [cur] else acc,
       { path := some (afterFirstSpace line), branch := none })
    else if startsWith line "branch " then
      (acc, { cur with branch := some (pyReplace (afterFirstSpace line) "refs/heads/" "") })
    else (acc, cur)

/-- The trailing append of get_worktrees: the last dict joins the list when
non-empty. -/
def finishParse : List RawWt × RawWt → List RawWt
  | (acc, cur) => if rawWtTruthy cur then acc ++ [cur] else acc

/-- The porcelain-listing loop of get_worktrees over a list of lines. -/
def parseWtsLines (lines : List String) : List RawWt :=
  finishParse (lines.foldl parseStep ([], {}))

/-- The enumerate pass of get_worktrees assigning is_main at index zero,
carried out with an explicit running index. -/
def markFirst : Nat → List RawWt → List WtData
  | _, [] => []
  | i, r :: rs =>
    { path := r.path, branch := r.branch, is_main := i == 0 } :: markFirst (i + 1) rs

/-- The parsed worktree records of get_worktrees for a given listing text:
empty listing-command output short-circuits to the empty list. -/
def wtRecords (raw : String) : List WtData :=
  if raw = "" then [] else markFirst 0 (parseWtsLines (pySplitlines raw))

/-- The number of worktree marker lines of a listing text. -/
def countWorktreeLines (raw : String) : Nat :=
  ((pySplitlines raw).filter (fun l => startsWith l "worktree ")).length

/-- Well-formedness of a porcelain worktree listing, as far as the counting
argument needs it: no branch marker line occurs before the first worktree
marker line.  Every listing actually printed by the porcelain worktree-list
command opens each stanza with its worktree line, so it satisfies this. -/
def noEarlyBranch : List String → Bool
  | [] => true
  | l :: ls =>
    if startsWith l "worktree " then true
    else if startsWith l "branch " then false
    else noEarlyBranch ls

/-- The session-scoped notification state: the set of seen keys (kept in
insertion order) and the notifications surfaced so far. -/
structure NotifyState where
  notified : List String
  messages : List String
deriving DecidableEq

/-- Models _notify_once: a key seen before is dropped, otherwise it is
recorded and the message surfaced. -/
def notify_once (st : NotifyState) (key msg : String) : NotifyState :=
  if key ∈ st.notified then st
  else { notified := st.notified ++ [key], messages := st.messages ++ [msg] }

/-- How the cwd argument prints inside the Python f-string building the
key: None prints as the four-letter word None. -/
def cwdStr : Option String → String
  | none => "None"
  | some s => s

/-- The dedup key of the non-accepted-exit-code branch of run_git. -/
def gitFailKey (cwd : Option String) (args : List String) : String :=
  "git_fail:" ++ cwdStr cwd ++ ":" ++ pyJoin " " args

/-- Models the non-accepted-exit-code branch of run_git: compose the
diagnostic from the detail (falling back to the exit code), report it
through notify_once under the git_fail key, and return the empty string. -/
def run_git_fail (st : NotifyState) (cwd : Option String) (args : List String)
    (detail : String) (returncode : Int) : NotifyState × String :=
  let command := pyJoin " " args
  let suffix := if detail ≠ "" then ": " ++ detail
    else " (exit " ++ toString returncode ++ ")"
  (notify_once st (gitFailKey cwd args) ("Command failed: " ++ command ++ suffix), "")

/-- The session divergence cache together with a count of the rev-list
left-right ahead/behind queries issued so far. -/
structure DivState where
  cache : List (String × String)
  revListQueries : Nat
deriving DecidableEq

/-- Models the get_div closure of update_details_view: a cache hit returns
the stored value; a record with a non-empty precomputed divergence returns
it (without touching the cache); the main worktree returns the empty
string; otherwise the rev-list left-right count query is issued (counted in
revListQueries), and a result that splits into exactly two fields is
formatted as the arrow-annotated string, cached and returned, while an
empty or differently shaped result yields the empty string with nothing
cached. -/
def get_div (st : DivState) (wt : WorktreeInfo) (queryRes : String) :
    DivState × String :=
  let cache_key := wt.path ++ ":" ++ wt.branch
  match lookupDict st.cache cache_key with
  | some v => (st, v)
  | none =>
    if wt.divergence ≠ "" then (st, wt.divergence)
    else if wt.is_main then (st, "")
    else
      let st1 : DivState := { st with revListQueries := st.revListQueries + 1 }
      if queryRes ≠ "" then
        match pySplitWs queryRes with
        | [m_behind, m_ahead] =>
          let divergence := "Main: ↑" ++ m_ahead ++ " ↓" ++ m_behind
          ({ st1 with cache := dictSet st1.cache cache_key divergence }, divergence)
        | _ => (st1, "")
      else (st1, "")

/-- One element of the JSON array returned by the gh pr list query with the
requested fields.  jsonLoads arguments below model Python json.loads
specialised to this declared schema: a successful parse yields the list of
objects, any other outcome is the decode error that json.loads raises. -/
structure PRJson where
  headRefName : String
  state : String
  number : Int
  title : String
  url : String
deriving DecidableEq

/-- The pr_map dict built from the parsed array, later entries overwriting
earlier ones with the same head branch, as Python dict assignment does. -/
def buildPrMap (prs : List PRJson) : List (String × PRInfo) :=
  prs.foldl (fun m p => dictSet m p.headRefName ⟨p.number, p.state, p.title, p.url⟩) []

/-- Models fetch_pr_map from git_service.py: empty tool output returns no
data; a decode failure is reported once under the pr_json_decode key and
returns no data; otherwise the parsed mapping (possibly empty) is
returned. -/
def fetch_pr_map (jsonLoads : String → Except String (List PRJson))
    (ns : NotifyState) (pr_raw : String) :
    NotifyState × Option (List (String × PRInfo)) :=
  if pr_raw = "" then (ns, none)
  else
    match jsonLoads pr_raw with
    | Except.error e =>
      (notify_once ns "pr_json_decode" ("Failed to parse PR data: " ++ e), none)
    | Except.ok prs => (ns, some (buildPrMap prs))

/-- Concrete schema-parse oracle for the fetch_pr_map witness: only the
empty-array text parses. -/
def prOracleA : String → Except String (List PRJson) :=
  fun s => if s = "[]" then Except.ok [] else Except.error "bad"

/-- The session state touched by fetch_pr_data in app.py. -/
structure AppState where
  worktrees : List WorktreeInfo
  prDataLoaded : Bool
  ns : NotifyState
deriving DecidableEq

/-- Models fetch_pr_data from app.py: empty tool output fails before
touching anything; a decode failure is reported once and fails; on success
the PR records are joined onto matching worktree records by branch name,
the loaded flag is set, and true is returned. -/
def fetch_pr_data (jsonLoads : String → Except String (List PRJson))
    (st : AppState) (pr_raw : String) : AppState × Bool :=
  if pr_raw = "" then (st, false)
  else
    match jsonLoads pr_raw with
    | Except.error e =>
      ({ st with
          ns := notify_once st.ns "pr_json_decode" ("Failed to parse PR data: " ++ e) },
        false)
    | Except.ok prs =>
      let pr_map := buildPrMap prs
      ({ st with
          worktrees := st.worktrees.map (fun wt =>
            match lookupDict pr_map wt.branch with
            | some pr => { wt with pr := some pr }
            | none => wt),
          prDataLoaded := true }, true)

/-- Models the guard of action_fetch_prs: a fetch request is dropped with a
no-op notice exactly when the loaded flag is set. -/
def prFetchSuppressed (st : AppState) : Bool := st.prDataLoaded

/-- Concrete schema-parse oracle for the fetch_pr_data witness. -/
def prOracleB : String → Except String (List PRJson) :=
  fun s => if s = "[]" then Except.ok [] else Except.error "bad"

/-- The cap on untracked files given a synthetic diff. -/
def max_untracked_diffs : Nat := 10

/-- The note prepended when the cap is exceeded.  Its total is the length of
untracked.splitlines(), the raw line count of the listing output. -/
def untrackedNote (untracked : String) : String :=
  "# Note: Showing first " ++ toString max_untracked_diffs ++
    " untracked files (total: " ++ toString (pySplitlines untracked).length ++ ")\n"

/-- Models the untracked portion of _build_diff_text: the untracked files
are the non-empty listing lines; above the cap the list is truncated to the
first cap files and the note is prepended; each remaining file gets the
synthetic no-index diff produced by the oracle diffOf, and empty diff
results are filtered out. -/
def build_untracked_patches (diffOf : String → String) (untracked : String) :
    List String :=
  let untracked_files := (pySplitlines untracked).filter (fun f => f ≠ "")
  if max_untracked_diffs < untracked_files.length then
    untrackedNote untracked ::
      (((untracked_files.take max_untracked_diffs).map diffOf).filter (fun p => p ≠ ""))
  else (untracked_files.map diffOf).filter (fun p => p ≠ "")

/-- One iteration of the for-each-ref loop of get_worktrees: a line without
a pipe, or one not splitting into exactly three pipe-separated fields, is
silently skipped; a three-field line stores (relative, int(unix)) under the
branch name, int() raising on a non-integer third field (modelled as an
error that aborts the batch). -/
def branchInfoStep (acc : List (String × String × Int)) (line : String) :
    Except Unit (List (String × String × Int)) :=
  if strIn "|" line then
    let parts := pySplitPipe line
    if parts.length = 3 then
      match pyInt (parts.getD 2 "") with
      | some ts => Except.ok (dictSet acc (parts.getD 0 "") (parts.getD 1 "", ts))
      | none => Except.error ()
    else Except.ok acc
  else Except.ok acc

/-- The whole branch-metadata batch parse of get_worktrees. -/
def parseBranchInfo (branch_raw : String) :
    Except Unit (List (String × String × Int)) :=
  (pySplitlines branch_raw).foldlM branchInfoStep []

/-- The display name of a record as rendered by update_table: the literal
main for the main worktree, the path basename otherwise. -/
def displayName (wt : WorktreeInfo) : String :=
  if wt.is_main then "main" else pyBasename wt.path

/-- The per-record test of the filter loop of update_table, applied to the
already stripped-and-lowercased query: the lowercased display name and
branch are always searched, the lowercased full path additionally when the
processed query contains a slash. -/
def wtMatches (query : String) (wt : WorktreeInfo) : Bool :=
  let name := displayName wt
  let haystacks := [pyLower name, pyLower wt.branch] ++
    (if strIn "/" query then [pyLower wt.path] else [])
  haystacks.any (fun h => strIn query h)

/-- Models the filtering stage of update_table: the query is stripped and
lowercased; when that leaves nothing the list passes through unfiltered,
otherwise the records matching wtMatches are kept in order. -/
def filter_worktrees (filter_query : String) (wts : List WorktreeInfo) :
    List WorktreeInfo :=
  let query := pyLower (pyStrip filter_query)
  if query = "" then wts else wts.filter (wtMatches query)

/-- The filter predicate exactly as the claim words it (for comparison with
the code): a record matches when its display name or branch contains the
lowercased query -- with no whitespace stripping -- as a substring of the
lowercased haystack, the full path being searched additionally exactly when
the query contains a slash. -/
def claimMatches (filter_query : String) (wt : WorktreeInfo) : Bool :=
  let q := pyLower filter_query
  strIn q (pyLower (displayName wt)) || strIn q (pyLower wt.branch) ||
    (strIn "/" filter_query && strIn q (pyLower wt.path))

/-- The concrete record used by the C10 counterexample and witness: a
non-main worktree at /w/x on branch x. -/
def wtSample : WorktreeInfo :=
  { path := "/w/x", branch := "x", is_main := false, dirty := false }

/-! ## Theorems -/

/-- C1: in the absorb operation, if the checkout-main step or the merge step
fails, no git worktree remove and no git branch -D command is issued
afterward for that worktree: the remove and branch-delete steps run only
when both checkout and merge succeeded. -/
theorem absorb_failfast (confirm : Option Bool) (w : AbsorbWorld)
    (main_branch : String) (wt : WorktreeInfo)
    (hfail : w.checkoutOk = false ∨ w.mergeOk = false) :
    ((do_absorb confirm w main_branch wt).1.filter isRemoveOrDelete) = [] := by
  unfold do_absorb
  by_cases h1 : wt.is_main
  · simp [h1]
  · by_cases h2 : confirm = some true
    · rcases hfail with h | h
      · simp [h1, h2, h, isRemoveOrDelete]
      · by_cases h3 : w.checkoutOk
        · simp [h1, h2, h3, h, isRemoveOrDelete]
        · simp [h1, h2, h3, isRemoveOrDelete]
    · simp [h1, h2]

/-- Folding the listing loop from a non-empty current dict yields one record
for the current dict plus one per worktree marker line. -/
theorem finishParse_foldl_truthy (lines : List String) :
    ∀ (acc : List RawWt) (cur : RawWt), rawWtTruthy cur = true →
    (finishParse (lines.foldl parseStep (acc, cur))).length
      = acc.length + 1 + (lines.filter (fun l => startsWith l "worktree ")).length := by
  induction lines with
  | nil => intro acc cur h; simp [finishParse, h]
  | cons l ls ih =>
    intro acc cur h
    rw [List.foldl_cons]
    by_cases hw : startsWith l "worktree " = true
    · rw [show parseStep (acc, cur) l = (acc ++ [cur],
          { path := some (afterFirstSpace l), branch := none }) by simp [parseStep, hw, h]]
      rw [ih _ _ (by simp [rawWtTruthy])]
      simp only [List.filter_cons, hw, if_true, List.length_append, List.length_cons,
        List.length_nil]
      omega
    · by_cases hb : startsWith l "branch " = true
      · rw [show parseStep (acc, cur) l = (acc, { cur with
            branch := some (pyReplace (afterFirstSpace l) "refs/heads/" "") }) by
          simp [parseStep, hw, hb]]
        rw [ih _ _ (by simp [rawWtTruthy])]
        simp only [List.filter_cons, hw]
        rw [if_neg (by simp)]
      · rw [show parseStep (acc, cur) l = (acc, cur) by simp [parseStep, hw, hb]]
        rw [ih _ _ h]
        simp only [List.filter_cons, hw]
        rw [if_neg (by simp)]

/-- Folding the listing loop from the initial empty dict on a listing whose
branch lines all follow a worktree line yields exactly one record per
worktree marker line. -/
theorem finishParse_foldl_start (lines : List String) :
    ∀ acc : List RawWt, noEarlyBranch lines = true →
    (finishParse (lines.foldl parseStep (acc, {}))).length
      = acc.length + (lines.filter (fun l => startsWith l "worktree ")).length := by
  induction lines with
  | nil => intro acc _; simp [finishParse, rawWtTruthy]
  | cons l ls ih =>
    intro acc hne
    rw [List.foldl_cons]
    by_cases hw : startsWith l "worktree " = true
    · rw [show parseStep (acc, {}) l =
          (acc, { path := some (afterFirstSpace l), branch := none }) by
        simp [parseStep, hw, rawWtTruthy]]
      rw [finishParse_foldl_truthy ls _ _ (by simp [rawWtTruthy])]
      simp only [List.filter_cons, hw, if_true, List.length_cons]
      omega
    · by_cases hb : startsWith l "branch " = true
      · exfalso
        unfold noEarlyBranch at hne
        rw [if_neg (by simp [hw]), if_pos hb] at hne
        cases hne
      · rw [show parseStep (acc, {}) l = (acc, {}) by simp [parseStep, hw, hb]]
        have hne' : noEarlyBranch ls = true := by
          unfold noEarlyBranch at hne
          rwa [if_neg (by simp [hw]), if_neg (by simp [hb])] at hne
        rw [ih _ hne']
        simp only [List.filter_cons, hw]
        rw [if_neg (by simp)]

/-- markFirst preserves length. -/
theorem markFirst_length (n : Nat) (l : List RawWt) :
    (markFirst n l).length = l.length := by
  induction l generalizing n with
  | nil => rfl
  | cons r rs ih => simp [markFirst, ih]

/-- In markFirst, the record at offset i carries is_main exactly when the
running index plus the offset is zero. -/
theorem markFirst_get? (l : List RawWt) :
    ∀ n i, ((markFirst n l).get? i).all (fun r => r.is_main == ((n + i) == 0)) = true := by
  induction l with
  | nil => intro n i; simp [markFirst]
  | cons r rs ih =>
    intro n i
    cases i with
    | zero => simp [markFirst]
    | succ j =>
      have hidx : n + (j + 1) = (n + 1) + j := by omega
      simp only [markFirst, List.get?_cons_succ, hidx]
      exact ih (n + 1) j

/-- C3: for every porcelain worktree-listing text (formalised as: no branch
marker line precedes the first worktree marker line, which holds of all
output of the porcelain listing command), the number of parsed worktree
records equals the number of worktree marker lines, and exactly the first
record carries is_main; empty listing-command output yields the empty
sequence. -/
theorem worktree_parse_count (raw : String) (i : Nat)
    (hporc : noEarlyBranch (pySplitlines raw) = true) :
    (wtRecords raw).length = countWorktreeLines raw
    ∧ ((wtRecords raw).get? i).all (fun r => r.is_main == (i == 0)) = true
    ∧ wtRecords "" = [] := by
  refine ⟨?_, ?_, rfl⟩
  · unfold wtRecords countWorktreeLines
    by_cases hr : raw = ""
    · simp [hr, pySplitlines]
    · rw [if_neg hr, markFirst_length]
      have h2 := finishParse_foldl_start (pySplitlines raw) [] hporc
      simp only [List.length_nil, Nat.zero_add] at h2
      unfold parseWtsLines
      exact h2
  · unfold wtRecords
    by_cases hr : raw = ""
    · simp [hr]
    · rw [if_neg hr]
      have := markFirst_get? (parseWtsLines (pySplitlines raw)) 0 i
      simpa using this

/-- Witness for worktree_parse_count on the porcelain listing used by the
repository's own enumeration test. -/
theorem worktree_parse_count_witness :
    noEarlyBranch (pySplitlines
      "worktree /repo\nHEAD 111\nbranch refs/heads/main\nworktree /repo/feature1\nbranch refs/heads/feature1") = true
    ∧ ((wtRecords
      "worktree /repo\nHEAD 111\nbranch refs/heads/main\nworktree /repo/feature1\nbranch refs/heads/feature1").length =
      countWorktreeLines
      "worktree /repo\nHEAD 111\nbranch refs/heads/main\nworktree /repo/feature1\nbranch refs/heads/feature1"
    ∧ ((wtRecords
      "worktree /repo\nHEAD 111\nbranch refs/heads/main\nworktree /repo/feature1\nbranch refs/heads/feature1").get? 1).all
        (fun r => r.is_main == (1 == 0)) = true
    ∧ wtRecords "" = []) :=
  ⟨by decide,
    worktree_parse_count
      "worktree /repo\nHEAD 111\nbranch refs/heads/main\nworktree /repo/feature1\nbranch refs/heads/feature1"
      1 (by decide)⟩

/-- If a pattern beginning with a character matches at the head of a list,
the list begins with that character. -/
theorem chStarts_cons_iff (a : Char) (ps l : List Char) :
    chStarts (a :: ps) l = true ↔ ∃ t, l = a :: t ∧ chStarts ps t = true := by
  cases l with
  | nil => simp [chStarts]
  | cons b bs =>
    simp only [chStarts, Bool.and_eq_true, beq_iff_eq, List.cons.injEq]
    constructor
    · rintro ⟨rfl, h⟩; exact ⟨bs, ⟨rfl, rfl⟩, h⟩
    · rintro ⟨t, ⟨rfl, rfl⟩, h⟩; exact ⟨rfl, h⟩

/-- C2: for every status line beginning with 1 or 2 followed by a space
whose second whitespace-separated field XY has at least two characters, the
staged counter increments exactly when X is not a dot and the modified
counter increments exactly when Y is not a dot; and every worktree record
produced by get_wt_info is dirty exactly when untracked + modified + staged
is positive. -/
theorem status_counts_spec (st : StatusCounts) (line : String)
    (wt : WtData) (bi : List (String × String × Int)) (raw : String)
    (info : WorktreeInfo)
    (h1 : (startsWith line "1 " || startsWith line "2 ") = true)
    (h2 : 2 ≤ ((pySplitWs line).getD 1 "").length)
    (hinfo : get_wt_info wt bi raw = Except.ok info) :
    statusStep st line = Except.ok { st with
      staged := st.staged +
        (if ((pySplitWs line).getD 1 "").toList.getD 0 ' ' ≠ '.' then 1 else 0),
      modified := st.modified +
        (if ((pySplitWs line).getD 1 "").toList.getD 1 ' ' ≠ '.' then 1 else 0) }
    ∧ (info.dirty = true ↔ 0 < info.untracked + info.modified + info.staged) := by
  constructor
  · have hhead : ∃ c t, line.toList = c :: t ∧ (c = '1' ∨ c = '2') := by
      rcases Bool.or_eq_true_iff.mp h1 with h | h
      · rcases (chStarts_cons_iff '1' [' '] line.toList).mp h with ⟨t, ht, _⟩
        exact ⟨'1', t, ht, Or.inl rfl⟩
      · rcases (chStarts_cons_iff '2' [' '] line.toList).mp h with ⟨t, ht, _⟩
        exact ⟨'2', t, ht, Or.inr rfl⟩
    rcases hhead with ⟨c, t, hline, hc⟩
    have hb1 : startsWith line "# branch.ab " = false := by
      unfold startsWith
      rw [show "# branch.ab ".toList =
        '#' :: [' ', 'b', 'r', 'a', 'n', 'c', 'h', '.', 'a', 'b', ' '] from rfl,
        hline]
      rcases hc with rfl | rfl <;> simp [chStarts]
    have hb2 : startsWith line "?" = false := by
      unfold startsWith
      rw [show "?".toList = ['?'] from rfl, hline]
      rcases hc with rfl | rfl <;> simp [chStarts]
    have hlen : 1 < (pySplitWs line).length := by
      by_contra hn
      push_neg at hn
      rw [List.getD_eq_default _ _ hn] at h2
      simp [String.length] at h2
    unfold statusStep
    rw [hb1, hb2, h1]
    simp only [Bool.false_eq_true, if_false, if_true, if_pos hlen, if_pos h2]
    have hst : ∀ x : Char, (if x = '.' then 0 else 1) =
        (if x ≠ '.' then 1 else 0) := by
      intro x; by_cases hx : x = '.' <;> simp [hx]
    rw [hst, hst]
  · unfold get_wt_info at hinfo
    cases hp : wt.path with
    | none => rw [hp] at hinfo; cases hinfo
    | some p =>
      rw [hp] at hinfo
      cases hfold : (pySplitlines raw).foldlM statusStep {} with
      | error e => rw [hfold] at hinfo; simp at hinfo
      | ok stf =>
        rw [hfold] at hinfo
        simp only [Except.ok.injEq] at hinfo
        subst hinfo
        simp

/-- Witness for status_counts_spec on the modified-only change line used by
the repository's own enumeration test. -/
theorem status_counts_spec_witness :
    ((startsWith "1 .M N... 100644 100644 100644 1 1 file.txt" "1 " ||
      startsWith "1 .M N... 100644 100644 100644 1 1 file.txt" "2 ") = true) ∧
    2 ≤ ((pySplitWs "1 .M N... 100644 100644 100644 1 1 file.txt").getD 1 "").length ∧
    get_wt_info { path := some "/repo/feature1", branch := some "feature1" }
        [("feature1", ("1 day ago", 200))]
        "# branch.ab +0 -0\n? new.txt\n1 .M N... 100644 100644 100644 1 1 file.txt\n"
      = Except.ok
          { path := "/repo/feature1", branch := "feature1", is_main := false,
            dirty := true, ahead := 0, behind := 0, last_active := "1 day ago",
            last_active_ts := 200, untracked := 1, modified := 1, staged := 0 } ∧
    (statusStep {} "1 .M N... 100644 100644 100644 1 1 file.txt" = Except.ok
        { staged := 0 +
            (if ((pySplitWs "1 .M N... 100644 100644 100644 1 1 file.txt").getD 1
                "").toList.getD 0 ' ' ≠ '.' then 1 else 0),
          modified := 0 +
            (if ((pySplitWs "1 .M N... 100644 100644 100644 1 1 file.txt").getD 1
                "").toList.getD 1 ' ' ≠ '.' then 1 else 0) }
    ∧ ((true : Bool) = true ↔ 0 < 1 + 1 + 0)) := by
  refine ⟨by decide, by decide, by rfl, ?_⟩
  exact status_counts_spec {} "1 .M N... 100644 100644 100644 1 1 file.txt"
    { path := some "/repo/feature1", branch := some "feature1" }
    [("feature1", ("1 day ago", 200))]
    "# branch.ab +0 -0\n? new.txt\n1 .M N... 100644 100644 100644 1 1 file.txt\n"
    { path := "/repo/feature1", branch := "feature1", is_main := false,
      dirty := true, ahead := 0, behind := 0, last_active := "1 day ago",
      last_active_ts := 200, untracked := 1, modified := 1, staged := 0 }
    (by decide) (by decide) (by rfl)

/-- Appending to both components of a string concatenation. -/
theorem string_append_data (a b : String) : (a ++ b).data = a.data ++ b.data := by
  cases a; cases b; rfl

/-- Left cancellation for string concatenation. -/
theorem string_append_left_cancel {a b c : String} (h : a ++ b = a ++ c) : b = c := by
  have hd := congrArg String.data h
  rw [string_append_data, string_append_data] at hd
  have hbc := List.append_cancel_left hd
  cases b; cases c; exact congrArg String.mk hbc

/-- Two git_fail keys with the same cwd and equal key strings come from the
same joined command. -/
theorem gitFailKey_inj_cmd {cwd : Option String} {args args2 : List String}
    (h : gitFailKey cwd args = gitFailKey cwd args2) :
    pyJoin " " args = pyJoin " " args2 := by
  unfold gitFailKey at h
  exact string_append_left_cancel h

/-- Two git_fail keys with the same joined command and equal key strings
come from the same directory string. -/
theorem gitFailKey_inj_cwd {p q : String} {args : List String}
    (h : gitFailKey (some p) args = gitFailKey (some q) args) : p = q := by
  unfold gitFailKey cwdStr at h
  have hd := congrArg String.data h
  simp only [string_append_data] at hd
  have h1 := List.append_cancel_right hd
  have h2 := List.append_cancel_right h1
  have h3 := List.append_cancel_left h2
  cases p; cases q; exact congrArg String.mk h3

/-- Behaviour of notify_once on a fresh key. -/
theorem notify_once_fresh (st : NotifyState) (key msg : String)
    (h : key ∉ st.notified) :
    notify_once st key msg =
      { notified := st.notified ++ [key], messages := st.messages ++ [msg] } := by
  unfold notify_once
  rw [if_neg h]

/-- Behaviour of notify_once on a seen key. -/
theorem notify_once_seen (st : NotifyState) (key msg : String)
    (h : key ∈ st.notified) : notify_once st key msg = st := by
  unfold notify_once
  rw [if_pos h]

/-- C4 counterexample: two failures with distinct (cwd, joined-command)
pairs -- cwd a:b with command c, then cwd a with command b:c -- build the
same raw key string git_fail:a:b:c, so only the first is surfaced, refuting
the claim that any two failures with distinct pairs are both reported. -/
theorem notify_dedup_cex :
    ((some "a:b", pyJoin " " ["c"]) ≠ ((some "a" : Option String), pyJoin " " ["b:c"]))
    ∧ (run_git_fail (run_git_fail ⟨[], []⟩ (some "a:b") ["c"] "boom" 1).1
        (some "a") ["b:c"] "boom" 1).1.messages.length = 1 := by
  constructor
  · decide
  · decide

/-- C4 amended: the deduplication is keyed by the single string
git_fail:{cwd}:{command}.  For one (cwd, joined-command) pair a failure is
surfaced at most once per process lifetime; a fresh key is surfaced; two
failures whose pairs share the cwd but differ in the joined command, or
share the joined command but occur under two distinct directory strings,
are both reported.  Pairs differing in both components may collide when a
colon inside one cwd shifts the key boundary, as the counterexample
shows. -/
theorem notify_dedup_amended
    (st st2 : NotifyState) (cwd : Option String) (args args2 args3 : List String)
    (p q d1 d2 d3 d4 : String) (r1 r2 r3 r4 : Int)
    (hk1 : gitFailKey cwd args ∉ st.notified)
    (hk2 : gitFailKey cwd args2 ∉ st.notified)
    (hcmd : pyJoin " " args ≠ pyJoin " " args2)
    (hpq : p ≠ q)
    (hk3 : gitFailKey (some p) args3 ∉ st2.notified)
    (hk4 : gitFailKey (some q) args3 ∉ st2.notified) :
    (run_git_fail st cwd args d1 r1).1.messages.length = st.messages.length + 1
    ∧ (run_git_fail (run_git_fail st cwd args d1 r1).1 cwd args d2 r2).1.messages
        = (run_git_fail st cwd args d1 r1).1.messages
    ∧ (run_git_fail (run_git_fail st cwd args d1 r1).1 cwd args2 d2 r2).1.messages.length
        = st.messages.length + 2
    ∧ (run_git_fail (run_git_fail st2 (some p) args3 d3 r3).1
        (some q) args3 d4 r4).1.messages.length = st2.messages.length + 2 := by
  refine ⟨?_, ?_, ?_, ?_⟩
  · simp only [run_git_fail]
    rw [notify_once_fresh _ _ _ hk1]
    simp
  · simp only [run_git_fail]
    rw [notify_once_fresh _ _ _ hk1]
    rw [notify_once_seen _ _ _ (by simp)]
  · simp only [run_git_fail]
    rw [notify_once_fresh _ _ _ hk1]
    rw [notify_once_fresh _ _ _ (by
      simp only [List.mem_append, List.mem_singleton, not_or]
      exact ⟨hk2, fun he => hcmd (gitFailKey_inj_cmd he).symm⟩)]
    simp
  · simp only [run_git_fail]
    rw [notify_once_fresh _ _ _ hk3]
    rw [notify_once_fresh _ _ _ (by
      simp only [List.mem_append, List.mem_singleton, not_or]
      exact ⟨hk4, fun he => hpq (gitFailKey_inj_cwd he).symm⟩)]
    simp

/-- Witness for notify_dedup_amended at concrete directories and
commands. -/
theorem notify_dedup_amended_witness :
    (gitFailKey (some "w") ["g", "s"] ∉ ([] : List String)
    ∧ gitFailKey (some "w") ["g", "d"] ∉ ([] : List String)
    ∧ pyJoin " " ["g", "s"] ≠ pyJoin " " ["g", "d"]
    ∧ "x" ≠ "y"
    ∧ gitFailKey (some "x") ["c"] ∉ ([] : List String)
    ∧ gitFailKey (some "y") ["c"] ∉ ([] : List String))
    ∧ ((run_git_fail ⟨[], []⟩ (some "w") ["g", "s"] "e1" 1).1.messages.length = 0 + 1
    ∧ (run_git_fail (run_git_fail ⟨[], []⟩ (some "w") ["g", "s"] "e1" 1).1
        (some "w") ["g", "s"] "e2" 2).1.messages
        = (run_git_fail ⟨[], []⟩ (some "w") ["g", "s"] "e1" 1).1.messages
    ∧ (run_git_fail (run_git_fail ⟨[], []⟩ (some "w") ["g", "s"] "e1" 1).1
        (some "w") ["g", "d"] "e2" 2).1.messages.length = 0 + 2
    ∧ (run_git_fail (run_git_fail ⟨[], []⟩ (some "x") ["c"] "e3" 3).1
        (some "y") ["c"] "e4" 4).1.messages.length = 0 + 2) :=
  ⟨⟨by decide, by decide, by decide, by decide, by decide, by decide⟩,
    notify_dedup_amended ⟨[], []⟩ ⟨[], []⟩ (some "w") ["g", "s"] ["g", "d"] ["c"]
      "x" "y" "e1" "e2" "e3" "e4" 1 2 3 4
      (by decide) (by decide) (by decide) (by decide) (by decide) (by decide)⟩

/-- dictSet stores a value retrievable under its key. -/
theorem lookupDict_dictSet {α : Type} (m : List (String × α)) (k : String) (v : α) :
    lookupDict (dictSet m k v) k = some v := by
  induction m with
  | nil => simp [dictSet, lookupDict, List.find?]
  | cons kv rest ih =>
    obtain ⟨k', v'⟩ := kv
    by_cases h : k' = k
    · simp [dictSet, h, lookupDict, List.find?]
    · simp only [dictSet, if_neg h]
      unfold lookupDict at ih ⊢
      rw [List.find?_cons_of_neg _ (by simp [h])]
      exact ih

/-- C5 counterexample: when the first rev-list query fails (run_git returns
the empty string) nothing is cached and the record keeps an empty
divergence, so a second call for the same (path, branch) issues the query
again -- two issues, refuting at most once. -/
theorem divergence_cache_cex :
    ¬ ((get_div (get_div ⟨[], 0⟩
        { path := "/w/a", branch := "b", is_main := false, dirty := false } "").1
        { path := "/w/a", branch := "b", is_main := false, dirty := false }
        "").1.revListQueries ≤ 1) := by
  decide

/-- C5 amended: a cached value is returned without re-querying and without a
state change; a record with a non-empty precomputed divergence has that
value returned directly, but it is not stored in the divergence cache; the
main worktree never issues the rev-list query; and two successive calls for
the same (path, branch) issue the underlying query at most once provided
the first issued query returns output splitting into exactly two fields --
the result is then formatted, cached, and the second call returns it from
the cache with no further query.  (When the query fails nothing is cached
and a later call re-issues it, as the counterexample shows.) -/
theorem divergence_cache_amended
    (sth stp stm st : DivState) (wth wtp wtm wt : WorktreeInfo)
    (qh qp qm q q2 v mb ma : String)
    (hhit : lookupDict sth.cache (wth.path ++ ":" ++ wth.branch) = some v)
    (hmissp : lookupDict stp.cache (wtp.path ++ ":" ++ wtp.branch) = none)
    (hdivp : wtp.divergence ≠ "")
    (hmissm : lookupDict stm.cache (wtm.path ++ ":" ++ wtm.branch) = none)
    (hdivm : wtm.divergence = "") (hm : wtm.is_main = true)
    (hmiss : lookupDict st.cache (wt.path ++ ":" ++ wt.branch) = none)
    (hdiv : wt.divergence = "") (hnm : wt.is_main = false)
    (hq : q ≠ "") (hsplit : pySplitWs q = [mb, ma]) :
    get_div sth wth qh = (sth, v)
    ∧ get_div stp wtp qp = (stp, wtp.divergence)
    ∧ get_div stm wtm qm = (stm, "")
    ∧ (get_div st wt q).1.revListQueries = st.revListQueries + 1
    ∧ (get_div st wt q).2 = "Main: ↑" ++ ma ++ " ↓" ++ mb
    ∧ get_div (get_div st wt q).1 wt q2 =
        ((get_div st wt q).1, "Main: ↑" ++ ma ++ " ↓" ++ mb) := by
  have hfirst : get_div st wt q =
      ({ cache := dictSet st.cache (wt.path ++ ":" ++ wt.branch)
            ("Main: ↑" ++ ma ++ " ↓" ++ mb),
         revListQueries := st.revListQueries + 1 },
       "Main: ↑" ++ ma ++ " ↓" ++ mb) := by
    simp [get_div, hmiss, hdiv, hnm, hq, hsplit]
  refine ⟨?_, ?_, ?_, ?_, ?_, ?_⟩
  · simp [get_div, hhit]
  · simp [get_div, hmissp, hdivp]
  · simp [get_div, hmissm, hdivm, hm]
  · rw [hfirst]
  · rw [hfirst]
  · rw [hfirst]
    simp [get_div, lookupDict_dictSet]

/-- Witness for divergence_cache_amended at concrete states and records. -/
theorem divergence_cache_amended_witness :
    (lookupDict [("/w/h:bh", "Main: ↑1 ↓0")] ("/w/h" ++ ":" ++ "bh") =
        some "Main: ↑1 ↓0"
    ∧ lookupDict ([] : List (String × String)) ("/w/p" ++ ":" ++ "bp") = none
    ∧ ("D" : String) ≠ ""
    ∧ lookupDict ([] : List (String × String)) ("/w/m" ++ ":" ++ "bm") = none
    ∧ ("2 3" : String) ≠ ""
    ∧ pySplitWs "2 3" = ["2", "3"])
    ∧ (get_div ⟨[("/w/h:bh", "Main: ↑1 ↓0")], 0⟩
        { path := "/w/h", branch := "bh", is_main := false, dirty := false } "x"
        = (⟨[("/w/h:bh", "Main: ↑1 ↓0")], 0⟩, "Main: ↑1 ↓0")
    ∧ get_div ⟨[], 0⟩
        { path := "/w/p", branch := "bp", is_main := false, dirty := false,
          divergence := "D" } "x"
        = (⟨[], 0⟩, "D")
    ∧ get_div ⟨[], 0⟩
        { path := "/w/m", branch := "bm", is_main := true, dirty := false } "x"
        = (⟨[], 0⟩, "")
    ∧ (get_div ⟨[], 5⟩
        { path := "/w/a", branch := "b", is_main := false, dirty := false }
        "2 3").1.revListQueries = 5 + 1
    ∧ (get_div ⟨[], 5⟩
        { path := "/w/a", branch := "b", is_main := false, dirty := false }
        "2 3").2 = "Main: ↑" ++ "3" ++ " ↓" ++ "2"
    ∧ get_div (get_div ⟨[], 5⟩
        { path := "/w/a", branch := "b", is_main := false, dirty := false }
        "2 3").1
        { path := "/w/a", branch := "b", is_main := false, dirty := false } "zz"
        = ((get_div ⟨[], 5⟩
            { path := "/w/a", branch := "b", is_main := false, dirty := false }
            "2 3").1, "Main: ↑" ++ "3" ++ " ↓" ++ "2")) :=
  ⟨⟨by decide, by decide, by decide, by decide, by decide, by decide⟩,
    divergence_cache_amended
      ⟨[("/w/h:bh", "Main: ↑1 ↓0")], 0⟩ ⟨[], 0⟩ ⟨[], 0⟩ ⟨[], 5⟩
      { path := "/w/h", branch := "bh", is_main := false, dirty := false }
      { path := "/w/p", branch := "bp", is_main := false, dirty := false,
        divergence := "D" }
      { path := "/w/m", branch := "bm", is_main := true, dirty := false }
      { path := "/w/a", branch := "b", is_main := false, dirty := false }
      "x" "x" "x" "2 3" "zz" "Main: ↑1 ↓0" "2" "3"
      (by decide) (by decide) (by decide) (by decide) (by decide) (by decide)
      (by decide) (by decide) (by decide) (by decide) (by decide)⟩

/-- C6: the PR fetch returns no data exactly when the tool output is the
empty string or the JSON parse fails (the failure being reported once per
process lifetime), and otherwise returns the successfully parsed mapping
with no notification; an empty JSON array yields a present-but-empty
mapping, distinct from no data. -/
theorem fetch_pr_map_nodata
    (jsonLoads : String → Except String (List PRJson))
    (ns nsN : NotifyState) (rawE e rawOk rawN : String) (prs : List PRJson)
    (hE : rawE ≠ "") (herr : jsonLoads rawE = Except.error e)
    (hfresh : "pr_json_decode" ∉ ns.notified)
    (hOkne : rawOk ≠ "") (hok : jsonLoads rawOk = Except.ok prs)
    (hnone : (fetch_pr_map jsonLoads nsN rawN).2 = none) :
    (fetch_pr_map jsonLoads ns "").2 = none
    ∧ (fetch_pr_map jsonLoads ns rawE).2 = none
    ∧ (fetch_pr_map jsonLoads ns rawE).1.messages
        = ns.messages ++ ["Failed to parse PR data: " ++ e]
    ∧ (fetch_pr_map jsonLoads (fetch_pr_map jsonLoads ns rawE).1 rawE).1.messages
        = ns.messages ++ ["Failed to parse PR data: " ++ e]
    ∧ (fetch_pr_map jsonLoads ns rawOk).2 = some (buildPrMap prs)
    ∧ (fetch_pr_map jsonLoads ns rawOk).1 = ns
    ∧ buildPrMap [] = []
    ∧ (rawN = "" ∨ ∃ msg, jsonLoads rawN = Except.error msg) := by
  have hfr := notify_once_fresh ns "pr_json_decode"
    ("Failed to parse PR data: " ++ e) hfresh
  have hcall : fetch_pr_map jsonLoads ns rawE =
      ({ notified := ns.notified ++ ["pr_json_decode"],
         messages := ns.messages ++ ["Failed to parse PR data: " ++ e] }, none) := by
    unfold fetch_pr_map
    rw [if_neg hE, herr]
    simp [hfr]
  have hokcall : fetch_pr_map jsonLoads ns rawOk = (ns, some (buildPrMap prs)) := by
    unfold fetch_pr_map
    rw [if_neg hOkne, hok]
  refine ⟨by simp [fetch_pr_map], ?_, ?_, ?_, ?_, ?_, rfl, ?_⟩
  · rw [hcall]
  · rw [hcall]
  · rw [hcall]
    unfold fetch_pr_map
    rw [if_neg hE, herr]
    have hseen := notify_once_seen
      { notified := ns.notified ++ ["pr_json_decode"],
        messages := ns.messages ++ ["Failed to parse PR data: " ++ e] }
      "pr_json_decode" ("Failed to parse PR data: " ++ e) (by simp)
    simp [hseen]
  · rw [hokcall]
  · rw [hokcall]
  · unfold fetch_pr_map at hnone
    by_cases hr : rawN = ""
    · exact Or.inl hr
    · rw [if_neg hr] at hnone
      cases hj : jsonLoads rawN with
      | error msg => exact Or.inr ⟨msg, rfl⟩
      | ok prs2 =>
        rw [hj] at hnone
        simp at hnone

/-- Witness for fetch_pr_map_nodata with the empty-array output and a
malformed output. -/
theorem fetch_pr_map_nodata_witness :
    (("x" : String) ≠ ""
    ∧ prOracleA "x" = Except.error "bad"
    ∧ "pr_json_decode" ∉ (⟨[], []⟩ : NotifyState).notified
    ∧ ("[]" : String) ≠ ""
    ∧ prOracleA "[]" = Except.ok []
    ∧ (fetch_pr_map prOracleA ⟨[], []⟩ "x").2 = none)
    ∧ ((fetch_pr_map prOracleA ⟨[], []⟩ "").2 = none
    ∧ (fetch_pr_map prOracleA ⟨[], []⟩ "x").2 = none
    ∧ (fetch_pr_map prOracleA ⟨[], []⟩ "x").1.messages
        = ([] : List String) ++ ["Failed to parse PR data: " ++ "bad"]
    ∧ (fetch_pr_map prOracleA (fetch_pr_map prOracleA ⟨[], []⟩ "x").1 "x").1.messages
        = ([] : List String) ++ ["Failed to parse PR data: " ++ "bad"]
    ∧ (fetch_pr_map prOracleA ⟨[], []⟩ "[]").2 = some (buildPrMap [])
    ∧ (fetch_pr_map prOracleA ⟨[], []⟩ "[]").1 = (⟨[], []⟩ : NotifyState)
    ∧ buildPrMap [] = []
    ∧ (("x" : String) = "" ∨ ∃ msg, prOracleA "x" = Except.error msg)) :=
  ⟨⟨by decide, rfl, by decide, by decide, rfl, rfl⟩,
    fetch_pr_map_nodata prOracleA ⟨[], []⟩ ⟨[], []⟩ "x" "bad" "[]" "x" []
      (by decide) rfl (by decide) (by decide) rfl rfl⟩

/-- C9: when a PR fetch fails (empty tool output or malformed JSON) every
worktree record is left unchanged, the pr-data-loaded flag stays false and
the call reports failure, so a subsequent fetch request is not suppressed
as a no-op; and the flag is set only by a call that returns success. -/
theorem fetch_pr_failure_state
    (jsonLoads : String → Except String (List PRJson))
    (st st2 : AppState) (pr_raw raw2 e : String)
    (hfail : pr_raw = "" ∨ jsonLoads pr_raw = Except.error e)
    (hflag : st.prDataLoaded = false)
    (hsucc : (fetch_pr_data jsonLoads st2 raw2).2 = true) :
    (fetch_pr_data jsonLoads st pr_raw).1.worktrees = st.worktrees
    ∧ (fetch_pr_data jsonLoads st pr_raw).1.prDataLoaded = false
    ∧ (fetch_pr_data jsonLoads st pr_raw).2 = false
    ∧ prFetchSuppressed (fetch_pr_data jsonLoads st pr_raw).1 = false
    ∧ (fetch_pr_data jsonLoads st2 raw2).1.prDataLoaded = true := by
  have hmain : (fetch_pr_data jsonLoads st pr_raw).1.worktrees = st.worktrees
      ∧ (fetch_pr_data jsonLoads st pr_raw).1.prDataLoaded = false
      ∧ (fetch_pr_data jsonLoads st pr_raw).2 = false := by
    by_cases hr : pr_raw = ""
    · simp [fetch_pr_data, hr, hflag]
    · have herr : jsonLoads pr_raw = Except.error e := by
        rcases hfail with h | h
        · exact absurd h hr
        · exact h
      unfold fetch_pr_data
      rw [if_neg hr, herr]
      simp [hflag]
  have hlast : (fetch_pr_data jsonLoads st2 raw2).1.prDataLoaded = true := by
    unfold fetch_pr_data at hsucc ⊢
    by_cases hr2 : raw2 = ""
    · rw [if_pos hr2] at hsucc; simp at hsucc
    · rw [if_neg hr2] at hsucc ⊢
      cases hj : jsonLoads raw2 with
      | error e2 => rw [hj] at hsucc; simp at hsucc
      | ok prs => simp
  exact ⟨hmain.1, hmain.2.1, hmain.2.2, by
    unfold prFetchSuppressed
    exact hmain.2.1, hlast⟩

/-- Witness for fetch_pr_failure_state: a malformed fetch leaves the state
alone, a successful one sets the flag. -/
theorem fetch_pr_failure_state_witness :
    ((("x" : String) = "" ∨ prOracleB "x" = Except.error "bad")
    ∧ (⟨[], false, ⟨[], []⟩⟩ : AppState).prDataLoaded = false
    ∧ (fetch_pr_data prOracleB ⟨[], false, ⟨[], []⟩⟩ "[]").2 = true)
    ∧ ((fetch_pr_data prOracleB ⟨[], false, ⟨[], []⟩⟩ "x").1.worktrees = []
    ∧ (fetch_pr_data prOracleB ⟨[], false, ⟨[], []⟩⟩ "x").1.prDataLoaded = false
    ∧ (fetch_pr_data prOracleB ⟨[], false, ⟨[], []⟩⟩ "x").2 = false
    ∧ prFetchSuppressed (fetch_pr_data prOracleB ⟨[], false, ⟨[], []⟩⟩ "x").1 = false
    ∧ (fetch_pr_data prOracleB ⟨[], false, ⟨[], []⟩⟩ "[]").1.prDataLoaded = true) :=
  ⟨⟨Or.inr rfl, rfl, rfl⟩,
    fetch_pr_failure_state prOracleB ⟨[], false, ⟨[], []⟩⟩ ⟨[], false, ⟨[], []⟩⟩
      "x" "[]" "bad" (Or.inr rfl) rfl rfl⟩

/-- C7 counterexample: eleven untracked files, one of which (an empty file)
produces an empty synthetic diff that the code filters out, leave the
untracked section with the note plus only nine patches -- not exactly
cap = 10 patches -- refuting the claim. -/
theorem untracked_cap_cex :
    max_untracked_diffs <
      ((pySplitlines "f0\nf1\nf2\nf3\nf4\nf5\nf6\nf7\nf8\nf9\nf10").filter
        (fun f => f ≠ "")).length
    ∧ (build_untracked_patches (fun f => if f = "f0" then "" else "d " ++ f)
        "f0\nf1\nf2\nf3\nf4\nf5\nf6\nf7\nf8\nf9\nf10").length = 10
    ∧ (build_untracked_patches (fun f => if f = "f0" then "" else "d " ++ f)
        "f0\nf1\nf2\nf3\nf4\nf5\nf6\nf7\nf8\nf9\nf10").length ≠ 1 + max_untracked_diffs := by
  refine ⟨by decide, by decide, by decide⟩

/-- C7 amended: when the number of untracked files exceeds the cap, the
untracked section is the note (stating the cap and the raw listing line
count, which equals the untracked-file count for a listing with no blank
lines) followed by the synthetic diffs of the first cap files that are
non-empty; when each of those diffs is non-empty there are exactly cap of
them. -/
theorem untracked_cap_amended (diffOf : String → String) (untracked : String)
    (hN : max_untracked_diffs <
      ((pySplitlines untracked).filter (fun f => f ≠ "")).length)
    (hall : ∀ f ∈ ((pySplitlines untracked).filter (fun f => f ≠ "")).take
      max_untracked_diffs, diffOf f ≠ "") :
    build_untracked_patches diffOf untracked
      = untrackedNote untracked ::
          (((pySplitlines untracked).filter (fun f => f ≠ "")).take
            max_untracked_diffs).map diffOf
    ∧ ((((pySplitlines untracked).filter (fun f => f ≠ "")).take
          max_untracked_diffs).map diffOf).length = max_untracked_diffs := by
  have hfeq : ((((pySplitlines untracked).filter (fun f => f ≠ "")).take
      max_untracked_diffs).map diffOf).filter (fun p => p ≠ "")
      = (((pySplitlines untracked).filter (fun f => f ≠ "")).take
          max_untracked_diffs).map diffOf := by
    apply List.filter_eq_self.mpr
    intro p hp
    rcases List.mem_map.mp hp with ⟨f, hf, rfl⟩
    simpa using hall f hf
  constructor
  · unfold build_untracked_patches
    rw [if_pos hN, hfeq]
  · rw [List.length_map, List.length_take]
    exact Nat.min_eq_left (Nat.le_of_lt hN)

/-- Witness for untracked_cap_amended: eleven untracked files whose
synthetic diffs are all non-empty give the note plus exactly ten
patches. -/
theorem untracked_cap_amended_witness :
    (max_untracked_diffs <
      ((pySplitlines "g0\ng1\ng2\ng3\ng4\ng5\ng6\ng7\ng8\ng9\ng10").filter
        (fun f => f ≠ "")).length
    ∧ ∀ f ∈ ((pySplitlines "g0\ng1\ng2\ng3\ng4\ng5\ng6\ng7\ng8\ng9\ng10").filter
        (fun f => f ≠ "")).take max_untracked_diffs, (fun f => "d " ++ f) f ≠ "")
    ∧ (build_untracked_patches (fun f => "d " ++ f)
        "g0\ng1\ng2\ng3\ng4\ng5\ng6\ng7\ng8\ng9\ng10"
      = untrackedNote "g0\ng1\ng2\ng3\ng4\ng5\ng6\ng7\ng8\ng9\ng10" ::
          (((pySplitlines "g0\ng1\ng2\ng3\ng4\ng5\ng6\ng7\ng8\ng9\ng10").filter
            (fun f => f ≠ "")).take max_untracked_diffs).map (fun f => "d " ++ f)
    ∧ ((((pySplitlines "g0\ng1\ng2\ng3\ng4\ng5\ng6\ng7\ng8\ng9\ng10").filter
          (fun f => f ≠ "")).take max_untracked_diffs).map
            (fun f => "d " ++ f)).length = max_untracked_diffs) :=
  ⟨⟨by decide, by decide⟩,
    untracked_cap_amended (fun f => "d " ++ f)
      "g0\ng1\ng2\ng3\ng4\ng5\ng6\ng7\ng8\ng9\ng10" (by decide) (by decide)⟩

/-- A one-character pattern occurs as a sublist exactly when the character
is a member. -/
theorem hasSub_singleton (c : Char) (l : List Char) :
    hasSub [c] l = true ↔ c ∈ l := by
  induction l with
  | nil => simp [hasSub, chStarts]
  | cons a as ih =>
    simp only [hasSub, chStarts, Bool.and_true, Bool.or_eq_true, beq_iff_eq, ih,
      List.mem_cons]

/-- Splitting a list containing no separator yields the single piece made of
the accumulator and the rest. -/
theorem splitCharsAux_no_sep (p : Char → Bool) (l : List Char) :
    ∀ acc, (∀ c ∈ l, p c = false) → splitCharsAux p l acc = [acc.reverse ++ l] := by
  induction l with
  | nil => intro acc _; simp [splitCharsAux]
  | cons c cs ih =>
    intro acc h
    have hc : p c = false := h c (List.mem_cons_self c cs)
    simp only [splitCharsAux, hc, Bool.false_eq_true, if_false]
    rw [ih (c :: acc) (fun d hd => h d (List.mem_cons_of_mem _ hd))]
    simp

/-- C8 counterexample: a batch whose second line has exactly three fields
with a non-integer third field makes int() raise, aborting the whole batch
-- refuting the claim that no malformed line raises or aborts. -/
theorem branch_info_cex :
    (parseBranchInfo "good|1 day ago|5\na|b|c").isOk = false
    ∧ parseBranchInfo "good|1 day ago|5\na|b|c" = Except.error () := by
  constructor
  · rfl
  · rfl

/-- C8 amended: a line that does not split on the pipe into exactly three
fields is silently skipped and never aborts the batch; a batch all of whose
three-field lines carry a valid integer third field parses without error;
but a line with exactly three fields whose third field is not a valid
integer raises and aborts the batch. -/
theorem branch_info_amended (acc : List (String × String × Int))
    (line lineBad : String) (lines : List String)
    (hne : (pySplitPipe line).length ≠ 3)
    (h3 : (pySplitPipe lineBad).length = 3)
    (hbad : pyInt ((pySplitPipe lineBad).getD 2 "") = none)
    (hgood : ∀ l ∈ lines, (pySplitPipe l).length = 3 →
      (pyInt ((pySplitPipe l).getD 2 "")).isSome = true) :
    branchInfoStep acc line = Except.ok acc
    ∧ branchInfoStep acc lineBad = Except.error ()
    ∧ ∃ m, lines.foldlM branchInfoStep acc = Except.ok m := by
  refine ⟨?_, ?_, ?_⟩
  · by_cases hs : strIn "|" line = true
    · simp [branchInfoStep, hs, hne]
    · simp [branchInfoStep, hs]
  · have hpipe : strIn "|" lineBad = true := by
      by_contra hf
      have hmem : '|' ∉ lineBad.toList := by
        intro hm
        exact hf (by
          unfold strIn
          rw [show ("|" : String).toList = ['|'] from rfl]
          exact (hasSub_singleton '|' lineBad.toList).mpr hm)
      have hone : pySplitPipe lineBad = [String.mk lineBad.toList] := by
        unfold pySplitPipe splitChars
        rw [splitCharsAux_no_sep _ _ [] (fun c hc => by
          have : c ≠ '|' := fun he => hmem (he ▸ hc)
          simp [this])]
        simp
      rw [hone] at h3
      simp at h3
    simp only [branchInfoStep, hpipe, h3, hbad, eq_self_iff_true, if_true]
  · clear hne h3 hbad
    induction lines generalizing acc with
    | nil => exact ⟨acc, rfl⟩
    | cons l ls ih =>
      have hstep : ∃ acc2, branchInfoStep acc l = Except.ok acc2 := by
        by_cases hsl : strIn "|" l = true
        · by_cases h3l : (pySplitPipe l).length = 3
          · have hsome := hgood l (List.mem_cons_self l ls) h3l
            cases hpi : pyInt ((pySplitPipe l).getD 2 "") with
            | none => rw [hpi] at hsome; simp at hsome
            | some ts =>
              refine ⟨dictSet acc ((pySplitPipe l).getD 0 "")
                ((pySplitPipe l).getD 1 "", ts), ?_⟩
              simp only [branchInfoStep, hsl, h3l, hpi, eq_self_iff_true, if_true]
          · exact ⟨acc, by simp [branchInfoStep, hsl, h3l]⟩
        · exact ⟨acc, by simp [branchInfoStep, hsl]⟩
      obtain ⟨acc2, hacc2⟩ := hstep
      rw [List.foldlM_cons, hacc2]
      have hg2 : ∀ l2 ∈ ls, (pySplitPipe l2).length = 3 →
          (pyInt ((pySplitPipe l2).getD 2 "")).isSome = true :=
        fun l2 h2 => hgood l2 (List.mem_cons_of_mem _ h2)
      obtain ⟨m, hm⟩ := ih acc2 hg2
      exact ⟨m, by simpa using hm⟩

/-- Witness for branch_info_amended on a batch with a two-field line, a
bad-integer line and a tolerant remainder. -/
theorem branch_info_amended_witness :
    ((pySplitPipe "x|y").length ≠ 3
    ∧ (pySplitPipe "a|b|c").length = 3
    ∧ pyInt ((pySplitPipe "a|b|c").getD 2 "") = none
    ∧ ∀ l ∈ ["b1|1 day ago|5", "weird", "a|b|c|d"], (pySplitPipe l).length = 3 →
        (pyInt ((pySplitPipe l).getD 2 "")).isSome = true)
    ∧ (branchInfoStep [] "x|y" = Except.ok []
    ∧ branchInfoStep [] "a|b|c" = Except.error ()
    ∧ ∃ m, List.foldlM branchInfoStep [] ["b1|1 day ago|5", "weird", "a|b|c|d"]
        = Except.ok m) :=
  ⟨⟨by decide, by decide, by decide, by decide⟩,
    branch_info_amended [] "x|y" "a|b|c" ["b1|1 day ago|5", "weird", "a|b|c|d"]
      (by decide) (by decide) (by decide) (by decide)⟩

/-- C10 counterexample: the query consisting of x surrounded by spaces is
stripped by the code before matching, so the record with branch x is kept,
while the claim predicate -- which searches for the raw lowercased query --
rejects it. -/
theorem filter_query_cex :
    filter_worktrees " x " [wtSample] ≠ [wtSample].filter (claimMatches " x ") := by
  decide

/-- wtMatches unfolded to the disjunction the claim describes. -/
theorem wtMatches_iff (q : String) (wt : WorktreeInfo) :
    wtMatches q wt = true ↔
      (strIn q (pyLower (displayName wt)) = true
        ∨ strIn q (pyLower wt.branch) = true
        ∨ (strIn "/" q = true ∧ strIn q (pyLower wt.path) = true)) := by
  unfold wtMatches
  by_cases hs : strIn "/" q = true
  · simp [hs]
  · simp [hs]

/-- C10 amended: for a query that still contains something after stripping
surrounding whitespace, the filtered result keeps exactly the records whose
display name (basename, or the literal main for the main worktree) or
branch contains the stripped, lowercased query as a case-insensitive
substring, the full path being additionally searched exactly when the
processed query contains a slash; a query that strips to nothing leaves the
list unfiltered. -/
theorem filter_query_amended (q q0 : String) (wts : List WorktreeInfo)
    (wt : WorktreeInfo) (hq : pyLower (pyStrip q) ≠ "")
    (h0 : pyLower (pyStrip q0) = "") :
    (wt ∈ filter_worktrees q wts ↔ wt ∈ wts ∧
      (strIn (pyLower (pyStrip q)) (pyLower (displayName wt)) = true
        ∨ strIn (pyLower (pyStrip q)) (pyLower wt.branch) = true
        ∨ (strIn "/" (pyLower (pyStrip q)) = true
            ∧ strIn (pyLower (pyStrip q)) (pyLower wt.path) = true)))
    ∧ filter_worktrees q0 wts = wts := by
  constructor
  · simp only [filter_worktrees]
    rw [if_neg hq, List.mem_filter, wtMatches_iff]
  · simp only [filter_worktrees, h0, eq_self_iff_true, if_true]

/-- Witness for filter_query_amended at a concrete record, a query with
surrounding blanks and uppercase, and an all-blank query. -/
theorem filter_query_amended_witness :
    (pyLower (pyStrip " X ") ≠ "" ∧ pyLower (pyStrip "  ") = "")
    ∧ (wtSample ∈ filter_worktrees " X " [wtSample] ↔ wtSample ∈ [wtSample] ∧
      (strIn (pyLower (pyStrip " X ")) (pyLower (displayName wtSample)) = true
        ∨ strIn (pyLower (pyStrip " X ")) (pyLower wtSample.branch) = true
        ∨ (strIn "/" (pyLower (pyStrip " X ")) = true
            ∧ strIn (pyLower (pyStrip " X ")) (pyLower wtSample.path) = true)))
    ∧ filter_worktrees "  " [wtSample] = [wtSample] :=
  ⟨⟨by decide, by decide⟩,
    (filter_query_amended " X " "  " [wtSample] wtSample (by decide) (by decide)).1,
    (filter_query_amended " X " "  " [wtSample] wtSample (by decide) (by decide)).2⟩

/-- Witness for absorb_failfast at a concrete failing merge. -/
theorem absorb_failfast_witness :
    ((⟨true, false, true, true⟩ : AbsorbWorld).checkoutOk = false ∨
      (⟨true, false, true, true⟩ : AbsorbWorld).mergeOk = false) ∧
    ((do_absorb (some true) ⟨true, false, true, true⟩ "main"
        { path := "/w/f", branch := "f", is_main := false, dirty := false }).1.filter
      isRemoveOrDelete) = [] :=
  ⟨Or.inr rfl,
    absorb_failfast (some true) ⟨true, false, true, true⟩ "main"
      { path := "/w/f", branch := "f", is_main := false, dirty := false }
      (Or.inr rfl)⟩
